import Mathlib

/-!
Shallow embedding of the TRACS assembler (`src/assembler.c`) and proofs
about its behaviour.  The model starts from the normalized line sequence
(the `LINE` array produced by `process_file`): a program is a `List LINE`.
File I/O (reading `script.asm`, opening `translation.txt`, console
printing) is peripheral and is modelled by the returned value: an
`Except` error for the abort paths and a list of emitted output lines
for the success path.
-/

namespace TRACS

/-- One normalized source line: the three whitespace-separated fields
`label`, `operation`, `operand` of the C `LINE` struct. -/
structure LINE where
  label : String
  operation : String
  operand : String
deriving DecidableEq

/-- Default line used with `List.getD`; corresponds to no line. -/
def dLINE : LINE := ⟨"", "", ""⟩

/-- One entry of the C `LABEL` array: a label name and its address. -/
structure LABEL where
  label : String
  address : Nat

/-- Result of `get_opcode`: opcode byte and the `addBoolean` flag
(whether the operand is packed into the 16-bit word with the opcode).
The C sentinel `opcode == -1` for an unknown mnemonic is modelled by
`Option OPOBJ` being `none`. -/
structure OPOBJ where
  opcode : Nat
  addBoolean : Bool
deriving DecidableEq

/-- The instruction table of `get_opcode` (assembler.c lines 353-382). -/
def get_opcode (instruction : String) : Option OPOBJ :=
  if instruction = "WB" then some ⟨0x30, false⟩
  else if instruction = "WM" then some ⟨0x08, true⟩
  else if instruction = "RM" then some ⟨0x10, true⟩
  else if instruction = "WACC" then some ⟨0x48, false⟩
  else if instruction = "WIB" then some ⟨0x38, false⟩
  else if instruction = "WIO" then some ⟨0x28, true⟩
  else if instruction = "RACC" then some ⟨0x58, false⟩
  else if instruction = "ADD" then some ⟨0xF0, false⟩
  else if instruction = "SUB" then some ⟨0xE8, false⟩
  else if instruction = "MUL" then some ⟨0xD8, false⟩
  else if instruction = "AND" then some ⟨0xD0, false⟩
  else if instruction = "OR" then some ⟨0xC8, false⟩
  else if instruction = "NOT" then some ⟨0xC0, false⟩
  else if instruction = "XOR" then some ⟨0xB8, false⟩
  else if instruction = "SHL" then some ⟨0xB0, false⟩
  else if instruction = "SHR" then some ⟨0xA8, false⟩
  else if instruction = "BR" then some ⟨0x18, true⟩
  else if instruction = "BRE" then some ⟨0xA0, true⟩
  else if instruction = "BRNE" then some ⟨0x98, true⟩
  else if instruction = "BRGT" then some ⟨0x90, true⟩
  else if instruction = "BRLT" then some ⟨0x88, true⟩
  else if instruction = "EOP" then some ⟨0xF8, false⟩
  else if instruction = "SWAP" then some ⟨0x70, false⟩
  else none

/-- The five-way `strcmp` test repeated at assembler.c lines 113 and 163:
is the operation one of the branch mnemonics. -/
def isBranchOp (s : String) : Bool :=
  s == "BR" || s == "BRE" || s == "BRNE" || s == "BRGT" || s == "BRLT"

/-- Models `strncmp(s, "0x", 2) == 0`: the first two characters are `0x`. -/
def startsWith0x (s : String) : Bool :=
  match s.toList with
  | '0' :: 'x' :: _ => true
  | _ => false

/-- Numeric value of a decimal digit character. -/
def digitVal (c : Char) : Nat := c.toNat - '0'.toNat

/-- C `isxdigit`: hexadecimal digit character. -/
def isHexChar (c : Char) : Bool :=
  c.isDigit || ('a' ≤ c && c ≤ 'f') || ('A' ≤ c && c ≤ 'F')

/-- Octal digit character. -/
def isOctChar (c : Char) : Bool := '0' ≤ c && c ≤ '7'

/-- Numeric value of a hexadecimal digit character. -/
def hexCharVal (c : Char) : Nat :=
  if c.isDigit then c.toNat - '0'.toNat
  else if 'a' ≤ c && c ≤ 'f' then c.toNat - 'a'.toNat + 10
  else if 'A' ≤ c && c ≤ 'F' then c.toNat - 'A'.toNat + 10
  else 0

/-- Accumulate the value of a digit string in the given base. -/
def natOfDigits (base : Nat) (f : Char → Nat) (cs : List Char) : Nat :=
  cs.foldl (fun acc c => acc * base + f c) 0

/-- Models `strtoul(s + 2, NULL, 16)` on an operand string `s`
(assembler.c line 157): skip the first two characters and read the
longest prefix of hexadecimal digits (sign forms and unsigned-long
overflow do not arise for the token shapes the assembler feeds in). -/
def strtoulHexSkip2 (s : String) : Nat :=
  natOfDigits 16 hexCharVal ((s.toList.drop 2).takeWhile isHexChar)

/-- Magnitude part of `strtol(s, NULL, 0)`: base prefix detection
(`0x`/`0X` hex, leading `0` octal, otherwise decimal) and the longest
valid digit prefix, 0 when no digit is readable. -/
def strtolMag (cs : List Char) : Nat :=
  match cs with
  | '0' :: 'x' :: rest => natOfDigits 16 hexCharVal (rest.takeWhile isHexChar)
  | '0' :: 'X' :: rest => natOfDigits 16 hexCharVal (rest.takeWhile isHexChar)
  | '0' :: rest => natOfDigits 8 digitVal (rest.takeWhile isOctChar)
  | _ => natOfDigits 10 digitVal (cs.takeWhile Char.isDigit)

/-- Models `strtol(s, NULL, 0)` (assembler.c line 240): optional sign,
then the base-prefixed magnitude. -/
def strtolBase0 (cs : List Char) : Int :=
  match cs with
  | '-' :: rest => - (strtolMag rest : Int)
  | '+' :: rest => (strtolMag rest : Int)
  | _ => (strtolMag cs : Int)

/-- Conversion of the `long` result of `strtol` to the `unsigned int`
variable `address`: reduction modulo 2^32. -/
def toUInt32Nat (i : Int) : Nat := (i % (2 ^ 32 : Int)).toNat

/-- Models `set_address` (assembler.c lines 232-246): scan all lines in
order; the first line whose label field is `"ORG"` sets the address to
its operation field parsed by `strtol` base 0; otherwise the address
is 0. -/
def set_address : List LINE → Nat
  | [] => 0
  | l :: rest =>
      if l.label = "ORG" then toUInt32Nat (strtolBase0 l.operation.toList)
      else set_address rest

/-- Step 3 of `assemble` (lines 63-73), label collection: walk the lines
from index 1, record an entry for every non-empty label field at the
current address, and advance the address by 2 for every line.  The
argument list is `lines.drop 1`; the starting address is the base. -/
def collectLabels : Nat → List LINE → List LABEL
  | _, [] => []
  | a, l :: rest =>
      (if l.label ≠ "" then [⟨l.label, a⟩] else []) ++ collectLabels (a + 2) rest

/-- The label table a program gives rise to (base address from
`set_address`, labels collected over the lines from index 1). -/
def labelsOf (lines : List LINE) : List LABEL :=
  collectLabels (set_address lines) (lines.drop 1)

/-- The label search loop used at assembler.c lines 86-91, 117-123,
167-173, 188-194: first entry whose name matches, if any. -/
def findLabel : List LABEL → String → Option Nat
  | [], _ => none
  | lb :: rest, s => if lb.label = s then some lb.address else findLabel rest s

/-- The `hasEOP` flag of Step 3: some line at index ≥ 1 has `"EOP"` as
its label or its operation field. -/
def hasEOP (lines : List LINE) : Bool :=
  (lines.drop 1).any (fun l => l.label == "EOP" || l.operation == "EOP")

/-- Validation diagnostics, carrying the string each `printf` reports:
the operand for an unknown label, the label field (as the C code prints)
for an invalid instruction, the operation for an invalid operand. -/
inductive VErr where
  | unknownLabel (operand : String)
  | invalidInstruction (label : String)
  | invalidOperand (operation : String)
deriving DecidableEq

/-- Condition of the unknown-label check (assembler.c line 84-92): the
operand is non-empty, does not start with `0x`, and matches no label. -/
def lineUnknownLabel (labels : List LABEL) (l : LINE) : Bool :=
  l.operand != "" && !(startsWith0x l.operand) && (findLabel labels l.operand).isNone

/-- Step 4 of `assemble` (lines 82-97): scan the lines from index 1 and
collect an unknown-label diagnostic for every offending operand. -/
def unknownLabelScan (labels : List LABEL) : List LINE → List VErr
  | [] => []
  | l :: rest =>
      (if lineUnknownLabel labels l then [VErr.unknownLabel l.operand] else []) ++
        unknownLabelScan labels rest

/-- Diagnostics one line contributes to the second validation loop
(assembler.c lines 104-130): an invalid-instruction error when the
mnemonic is unknown, and an invalid-operand error when a non-branch
mnemonic has a non-empty, non-`0x` operand that matches a label. -/
def lineOpErrs (labels : List LABEL) (l : LINE) : List VErr :=
  (if get_opcode l.operation = none then [VErr.invalidInstruction l.label] else []) ++
    (if isBranchOp l.operation = false ∧ l.operand ≠ "" ∧ startsWith0x l.operand = false ∧
        (findLabel labels l.operand).isSome = true
     then [VErr.invalidOperand l.operation] else [])

/-- The second validation loop over the lines from index 1. -/
def invalidOpScan (labels : List LABEL) : List LINE → List VErr
  | [] => []
  | l :: rest => lineOpErrs labels l ++ invalidOpScan labels rest

/-- One line of the `translation.txt` output.  `bytes` is the normal
`0xAA 0xBB\t0xCC 0xDD` line; `raw` is the line printed at assembler.c
line 208, whose second byte is the operand text verbatim; `unknown` is
the malformed line of line 213 (`0xAA 0xBB\tUnknown Label: ...`), which
prints no second address and no second byte. -/
inductive OutLine where
  | bytes (addr b0 addr1 b1 : Nat)
  | raw (addr b0 addr1 : Nat) (operandText : String)
  | unknown (addr b0 : Nat) (operand operation : String)
deriving DecidableEq

/-- Encoding of one line (the body of the Step 5 loop, assembler.c lines
145-217), at the given address.  Returns the output lines written for
it: one for most instructions, none for an unknown mnemonic (`continue`)
and none for a branch whose operand matches no label (the `fprintf`
sits inside the label-search loop and is never reached). -/
def encodeLine (labels : List LABEL) (a : Nat) (l : LINE) : List OutLine :=
  match get_opcode l.operation with
  | none => []
  | some op =>
    if op.addBoolean then
      let v := strtoulHexSkip2 l.operand
      let first := (((op.opcode <<< 8) ||| v) >>> 8) &&& 0xFF
      let second := ((op.opcode <<< 8) ||| v) &&& 0xFF
      if isBranchOp l.operation then
        match findLabel labels l.operand with
        | some la => [OutLine.bytes a first (a + 1) la]
        | none => []
      else [OutLine.bytes a first (a + 1) second]
    else
      match findLabel labels l.operand with
      | some la => [OutLine.bytes a op.opcode (a + 1) la]
      | none =>
        if l.operand = "" then [OutLine.bytes a op.opcode (a + 1) 0]
        else if startsWith0x l.operand ∧ (l.operand.toList.drop 2).all Char.isDigit then
          [OutLine.raw a op.opcode (a + 1) l.operand]
        else [OutLine.unknown a op.opcode l.operand l.operation]

/-- The Step 5 loop over the lines from index 1, advancing the address
by 2 after every line (emitted or not). -/
def encodeAll (labels : List LABEL) : Nat → List LINE → List OutLine
  | _, [] => []
  | a, l :: rest => encodeLine labels a l ++ encodeAll labels (a + 2) rest

/-- Abort conditions of `assemble`, with the diagnostics reported before
the abort. -/
inductive AsmError where
  | noEOP
  | invalidLabels (errs : List VErr)
  | invalidOps (errs : List VErr)

/-- The `assemble` pipeline (assembler.c lines 35-224) on a normalized
line list: set the base address, collect labels and the EOP flag over
lines 1.., abort when EOP is missing, abort after the unknown-label
scan when it reported anything, abort after the invalid-operation scan
when it reported anything, otherwise emit the encoded lines. -/
def assemble (lines : List LINE) : Except AsmError (List OutLine) :=
  let address := set_address lines
  let labels := collectLabels address (lines.drop 1)
  if hasEOP lines = false then Except.error AsmError.noEOP
  else
    let e1 := unknownLabelScan labels (lines.drop 1)
    if e1 ≠ [] then Except.error (AsmError.invalidLabels e1)
    else
      let e2 := invalidOpScan labels (lines.drop 1)
      if e2 ≠ [] then Except.error (AsmError.invalidOps e2)
      else Except.ok (encodeAll labels address (lines.drop 1))

/-- The output file contents a run produces: the emitted lines on
success, nothing on any abort path (every abort happens before
`translation.txt` receives any line). -/
def assembleOutput (lines : List LINE) : List OutLine :=
  match assemble lines with
  | Except.ok out => out
  | Except.error _ => []

/-- A program passes all three validation gates. -/
def validationOK (lines : List LINE) : Bool :=
  hasEOP lines &&
    decide (unknownLabelScan (labelsOf lines) (lines.drop 1) = []) &&
    decide (invalidOpScan (labelsOf lines) (lines.drop 1) = [])

/-! Claim-side vocabulary: definitions following the words of the spec,
used to state the claims and compare them with the code model. -/

/-- Well-formed hexadecimal literal in the words of the spec (section 4.4)
and claim C4: the prefix `0x` followed only by hexadecimal digits. -/
def isWellFormedHexLit (s : String) : Bool :=
  startsWith0x s && (s.toList.drop 2).all isHexChar

/-- Base address in the words of claim C7: determined by line 0 alone
(label `"ORG"` on line 0 sets it, anything else leaves it 0). -/
def baseClaimC7 (prog : List LINE) : Nat :=
  if (prog.getD 0 dLINE).label = "ORG"
  then toUInt32Nat (strtolBase0 ((prog.getD 0 dLINE).operation).toList)
  else 0

/-- Whether the encoder writes an output line for this source line: it
does except for a branch instruction whose operand matches no label. -/
def emitsLine (labels : List LABEL) (l : LINE) : Bool :=
  !(isBranchOp l.operation && (findLabel labels l.operand).isNone)

/-- Expected first addresses of the emitted output lines: one address
per emitting line, in program order, advancing by 2 per source line. -/
def emittedAddrs (labels : List LABEL) : Nat → List LINE → List Nat
  | _, [] => []
  | a, l :: rest =>
      (if emitsLine labels l then [a] else []) ++ emittedAddrs labels (a + 2) rest

/-- First address printed on an output line. -/
def outAddr0 : OutLine → Nat
  | OutLine.bytes a _ _ _ => a
  | OutLine.raw a _ _ _ => a
  | OutLine.unknown a _ _ _ => a

/-- Within one output line, the second address is one past the first
(vacuous for the malformed `unknown` line, which prints no second
address). -/
def addrStepOK : OutLine → Bool
  | OutLine.bytes a _ a1 _ => a1 == a + 1
  | OutLine.raw a _ a1 _ => a1 == a + 1
  | OutLine.unknown _ _ _ _ => true

/-- Second (operand) byte of an output line, when one is printed as a
number. -/
def outByte1 : OutLine → Option Nat
  | OutLine.bytes _ _ _ b1 => some b1
  | OutLine.raw _ _ _ _ => none
  | OutLine.unknown _ _ _ _ => none

/-! Concrete programs used as counterexamples and witnesses. -/

/-- ORG line, a branch with a hex-literal operand, EOP. -/
def progC1 : List LINE := [⟨"ORG", "0x0", ""⟩, ⟨"", "BR", "0x04"⟩, ⟨"", "EOP", ""⟩]

/-- Validated program with a label, a branch to it, and EOP. -/
def progC1w : List LINE :=
  [⟨"ORG", "0x0", ""⟩, ⟨"START", "WB", "0x05"⟩, ⟨"", "BR", "START"⟩, ⟨"", "EOP", ""⟩]

/-- Forward branch reference: `BR END` before `END` is defined. -/
def progC2 : List LINE := [⟨"", "WB", "0x01"⟩, ⟨"", "BR", "END"⟩, ⟨"END", "EOP", ""⟩]

/-- A single line whose operation field is `EOP` — at index 0. -/
def progC3 : List LINE := [⟨"", "EOP", ""⟩]

/-- Operand `0xZZ`: `0x`-prefixed but not a well-formed hex literal. -/
def progC4 : List LINE := [⟨"", "WB", "0x01"⟩, ⟨"", "WB", "0xZZ"⟩, ⟨"", "EOP", ""⟩]

/-- Two genuinely unknown label operands. -/
def progC4w : List LINE :=
  [⟨"", "WB", ""⟩, ⟨"", "WB", "qq"⟩, ⟨"", "WB", "rr"⟩, ⟨"", "EOP", ""⟩]

/-- An unknown-label error on one line and an unknown mnemonic (`FOO`)
on another. -/
def progC5 : List LINE :=
  [⟨"", "WB", "0x01"⟩, ⟨"", "WB", "qq"⟩, ⟨"LBL", "FOO", "0x01"⟩, ⟨"", "EOP", ""⟩]

/-- A well-formed hex literal containing a hex letter on a non-branch
instruction without encoded operand. -/
def progC6 : List LINE := [⟨"", "WB", "0x01"⟩, ⟨"", "WB", "0x0a"⟩, ⟨"", "EOP", ""⟩]

/-- A line labelled `ORG` at index 1, not at index 0. -/
def progC7 : List LINE := [⟨"", "WB", "0x01"⟩, ⟨"ORG", "0x10", ""⟩]

/-- No ORG label anywhere. -/
def progC7a : List LINE := [⟨"", "WB", "0x01"⟩, ⟨"", "EOP", ""⟩]

/-- An ORG-labelled line at index 1. -/
def progC7b : List LINE := [⟨"", "WB", "0x01"⟩, ⟨"ORG", "0x10", ""⟩, ⟨"", "EOP", ""⟩]

/-- A label literally named `0x05` and an `ADD` whose operand is that
label name. -/
def progC8 : List LINE :=
  [⟨"", "WB", "0x01"⟩, ⟨"0x05", "WB", "0x02"⟩, ⟨"", "ADD", "0x05"⟩, ⟨"", "EOP", ""⟩]

/-- An ordinary label `LBL`, an `ADD LBL` (illegal) and a `BR LBL`
(legal). -/
def progC8w : List LINE :=
  [⟨"", "WB", "0x01"⟩, ⟨"LBL", "WB", "0x01"⟩, ⟨"", "ADD", "LBL"⟩, ⟨"", "BR", "LBL"⟩,
   ⟨"", "EOP", ""⟩]

/-- A labelled, non-ORG first line. -/
def progC9 : List LINE := [⟨"L0", "WB", "0x01"⟩, ⟨"", "EOP", ""⟩]

/-! Helper lemmas about the pipeline. -/

/-- Table entry of the mnemonic `BR`. -/
theorem get_opcode_BR : get_opcode "BR" = some ⟨0x18, true⟩ := rfl

/-- Table entry of the mnemonic `BRE`. -/
theorem get_opcode_BRE : get_opcode "BRE" = some ⟨0xA0, true⟩ := rfl

/-- Table entry of the mnemonic `BRNE`. -/
theorem get_opcode_BRNE : get_opcode "BRNE" = some ⟨0x98, true⟩ := rfl

/-- Table entry of the mnemonic `BRGT`. -/
theorem get_opcode_BRGT : get_opcode "BRGT" = some ⟨0x90, true⟩ := rfl

/-- Table entry of the mnemonic `BRLT`. -/
theorem get_opcode_BRLT : get_opcode "BRLT" = some ⟨0x88, true⟩ := rfl

/-- Each of the five branch mnemonics is in the instruction table with
`addBoolean = true`. -/
theorem branch_get_opcode (s : String) (hbr : isBranchOp s = true) :
    ∃ c, get_opcode s = some ⟨c, true⟩ := by
  simp only [isBranchOp, Bool.or_eq_true, beq_iff_eq] at hbr
  rcases hbr with ((((h1 | h1) | h1) | h1) | h1) <;> subst h1
  · exact ⟨0x18, get_opcode_BR⟩
  · exact ⟨0xA0, get_opcode_BRE⟩
  · exact ⟨0x98, get_opcode_BRNE⟩
  · exact ⟨0x90, get_opcode_BRGT⟩
  · exact ⟨0x88, get_opcode_BRLT⟩

/-- `assemble` aborts with the missing-EOP error when the flag is unset. -/
theorem assemble_noEOP (lines : List LINE) (h : hasEOP lines = false) :
    assemble lines = Except.error AsmError.noEOP := by
  simp [assemble, h]

/-- The missing-EOP abort happens exactly when the EOP flag is unset:
with the flag set, every remaining path returns a different
constructor. -/
theorem assemble_noEOP_iff (prog : List LINE) :
    assemble prog = Except.error AsmError.noEOP ↔ hasEOP prog = false := by
  constructor
  · intro h
    by_contra hne
    rw [Bool.not_eq_false] at hne
    simp only [assemble, hne, Bool.true_eq_false, if_false] at h
    split at h
    · simp at h
    · split at h <;> simp at h
  · exact assemble_noEOP prog

/-- With EOP present, a non-empty unknown-label scan aborts `assemble`
with exactly the scanned diagnostics. -/
theorem assemble_invalidLabels (lines : List LINE) (h : hasEOP lines = true)
    (h2 : unknownLabelScan (labelsOf lines) (lines.drop 1) ≠ []) :
    assemble lines =
      Except.error (AsmError.invalidLabels (unknownLabelScan (labelsOf lines) (lines.drop 1))) := by
  simp [assemble, labelsOf] at *
  simp [h, h2]

/-- With EOP present and a clean unknown-label scan, a non-empty
invalid-operation scan aborts `assemble` with exactly its diagnostics. -/
theorem assemble_invalidOps (lines : List LINE) (h : hasEOP lines = true)
    (h2 : unknownLabelScan (labelsOf lines) (lines.drop 1) = [])
    (h3 : invalidOpScan (labelsOf lines) (lines.drop 1) ≠ []) :
    assemble lines =
      Except.error (AsmError.invalidOps (invalidOpScan (labelsOf lines) (lines.drop 1))) := by
  simp [assemble, labelsOf] at *
  simp [h, h2, h3]

/-- Unfolding of `validationOK`. -/
theorem validationOK_iff (lines : List LINE) :
    validationOK lines = true ↔
      hasEOP lines = true ∧ unknownLabelScan (labelsOf lines) (lines.drop 1) = [] ∧
        invalidOpScan (labelsOf lines) (lines.drop 1) = [] := by
  simp [validationOK, Bool.and_eq_true, decide_eq_true_eq, and_assoc]

/-- A fully validated program assembles to the encoded line list. -/
theorem assemble_ok (lines : List LINE) (h : validationOK lines = true) :
    assemble lines =
      Except.ok (encodeAll (labelsOf lines) (set_address lines) (lines.drop 1)) := by
  obtain ⟨h1, h2, h3⟩ := (validationOK_iff lines).mp h
  simp [labelsOf] at h2 h3
  simp [assemble, labelsOf, h1, h2, h3]

/-- The unknown-label scan is the filter of the offending lines, keeping
program order:  it runs over the whole list and reports exactly the
operands satisfying the unknown-label condition. -/
theorem unknownLabelScan_eq_filter (labels : List LABEL) (lns : List LINE) :
    unknownLabelScan labels lns =
      (lns.filter (fun l => lineUnknownLabel labels l)).map
        (fun l => VErr.unknownLabel l.operand) := by
  induction lns with
  | nil => rfl
  | cons l rest ih =>
      by_cases h : lineUnknownLabel labels l <;>
        simp [unknownLabelScan, List.filter_cons, h, ih]

/-- The unknown-label scan is empty exactly when no line offends. -/
theorem unknownLabelScan_nil_iff (labels : List LABEL) (lns : List LINE) :
    unknownLabelScan labels lns = [] ↔ ∀ l ∈ lns, lineUnknownLabel labels l = false := by
  rw [unknownLabelScan_eq_filter]
  simp [List.map_eq_nil_iff, List.filter_eq_nil_iff]

/-- Every offending line's diagnostic appears in the unknown-label scan. -/
theorem mem_unknownLabelScan (labels : List LABEL) (lns : List LINE) (l : LINE)
    (hl : l ∈ lns) (hbad : lineUnknownLabel labels l = true) :
    VErr.unknownLabel l.operand ∈ unknownLabelScan labels lns := by
  rw [unknownLabelScan_eq_filter]
  exact List.mem_map.mpr ⟨l, List.mem_filter.mpr ⟨hl, hbad⟩, rfl⟩

/-- Every diagnostic of every line appears in the invalid-operation
scan: the scan runs over the whole list. -/
theorem mem_invalidOpScan (labels : List LABEL) (lns : List LINE) (l : LINE) (e : VErr)
    (hl : l ∈ lns) (he : e ∈ lineOpErrs labels l) : e ∈ invalidOpScan labels lns := by
  induction lns with
  | nil => cases hl
  | cons x rest ih =>
      rcases List.mem_cons.mp hl with h | h
      · subst h
        exact List.mem_append.mpr (Or.inl he)
      · exact List.mem_append.mpr (Or.inr (ih h))

/-- A clean invalid-operation scan means every mnemonic is in the
instruction table. -/
theorem invalidOpScan_nil_ops (labels : List LABEL) (lns : List LINE)
    (h : invalidOpScan labels lns = []) :
    ∀ l ∈ lns, (get_opcode l.operation).isSome = true := by
  induction lns with
  | nil => simp
  | cons x rest ih =>
      rw [invalidOpScan, List.append_eq_nil] at h
      intro l hl
      rcases List.mem_cons.mp hl with hx | hx
      · subst hx
        rcases h with ⟨h1, _⟩
        rw [lineOpErrs, List.append_eq_nil] at h1
        rcases h1 with ⟨h1a, _⟩
        by_cases hc : get_opcode l.operation = none
        · simp [hc] at h1a
        · simpa [Option.isSome_iff_ne_none] using hc
      · exact ih h.2 l hx

/-- A known mnemonic's line emits one output line at its own address,
except a branch whose operand matches no label, which emits none; every
emitted line's second address is one past its first. -/
theorem encodeLine_addrs (labels : List LABEL) (a : Nat) (l : LINE)
    (hop : (get_opcode l.operation).isSome = true) :
    (encodeLine labels a l).map outAddr0 = (if emitsLine labels l then [a] else []) ∧
      ∀ o ∈ encodeLine labels a l, addrStepOK o = true := by
  obtain ⟨op, hsome⟩ := Option.isSome_iff_exists.mp hop
  by_cases hb : op.addBoolean
  · by_cases hbr : isBranchOp l.operation
    · cases hfind : findLabel labels l.operand with
      | some la =>
          simp [encodeLine, hsome, hb, hbr, hfind, emitsLine, outAddr0, addrStepOK]
      | none =>
          simp [encodeLine, hsome, hb, hbr, hfind, emitsLine, outAddr0, addrStepOK]
    · simp [encodeLine, hsome, hb, hbr, emitsLine, outAddr0, addrStepOK]
  · have hbr : isBranchOp l.operation = false := by
      by_contra hc
      rw [Bool.not_eq_false] at hc
      obtain ⟨c, hc2⟩ := branch_get_opcode _ hc
      rw [hsome] at hc2
      injection hc2 with hc3
      rw [hc3] at hb
      exact hb rfl
    have hemits : emitsLine labels l = true := by simp [emitsLine, hbr]
    cases hfind : findLabel labels l.operand with
    | some la =>
        simp [encodeLine, hsome, hb, hfind, hemits, outAddr0, addrStepOK]
    | none =>
        simp only [encodeLine, hsome, hb, hfind, hemits, Bool.false_eq_true, if_false,
          if_true]
        split_ifs <;> simp [outAddr0, addrStepOK]

/-- The Step 5 loop emits lines whose first addresses are exactly
`emittedAddrs`, and advances 2 per source line. -/
theorem encodeAll_addrs (labels : List LABEL) :
    ∀ (lns : List LINE) (a : Nat),
      (∀ l ∈ lns, (get_opcode l.operation).isSome = true) →
      (encodeAll labels a lns).map outAddr0 = emittedAddrs labels a lns ∧
        ∀ o ∈ encodeAll labels a lns, addrStepOK o = true
  | [], a, _ => by simp [encodeAll, emittedAddrs]
  | l :: rest, a, hops => by
      obtain ⟨e1, e2⟩ := encodeLine_addrs labels a l (hops l (by simp))
      obtain ⟨r1, r2⟩ := encodeAll_addrs labels rest (a + 2) (fun x hx => hops x (by simp [hx]))
      constructor
      · simp [encodeAll, emittedAddrs, e1, r1]
      · intro o ho
        rcases List.mem_append.mp (by simpa [encodeAll] using ho) with hcase | hcase
        · exact e2 o hcase
        · exact r2 o hcase

/-- The first line with a given non-empty label, all earlier lines in
the list bearing other labels, resolves to the address of its slot:
start address plus 2 per preceding line. -/
theorem findLabel_collectLabels (L : String) :
    ∀ (lns : List LINE) (a j : Nat), j < lns.length → L ≠ "" →
      (lns.getD j dLINE).label = L →
      (∀ k, k < j → (lns.getD k dLINE).label ≠ L) →
      findLabel (collectLabels a lns) L = some (a + 2 * j)
  | [], a, j, hj => by simp at hj
  | l :: rest, a, 0, hj => by
      intro hL hlab _
      rw [List.getD_cons_zero] at hlab
      have hne : l.label ≠ "" := by rw [hlab]; exact hL
      simp [collectLabels, hne, findLabel, hlab, hL]
  | l :: rest, a, j + 1, hj => by
      intro hL hlab hfirst
      have h0 : l.label ≠ L := by
        have := hfirst 0 (Nat.succ_pos j)
        rwa [List.getD_cons_zero] at this
      have hj' : j < rest.length := by simpa using hj
      have hlab' : (rest.getD j dLINE).label = L := by rwa [List.getD_cons_succ] at hlab
      have hfirst' : ∀ k, k < j → (rest.getD k dLINE).label ≠ L := by
        intro k hk
        have := hfirst (k + 1) (Nat.succ_lt_succ hk)
        rwa [List.getD_cons_succ] at this
      have ihr := findLabel_collectLabels L rest (a + 2) j hj' hL hlab' hfirst'
      have harith : a + 2 + 2 * j = a + 2 * (j + 1) := by ring
      by_cases hne : l.label = ""
      · simp [collectLabels, hne, ihr, harith]
      · simp [collectLabels, hne, findLabel, h0, ihr, harith]

/-- Position `i` of the whole program is position `i - 1` of the list of
instruction lines (the lines from index 1). -/
theorem getD_drop_one (l : List LINE) (i : Nat) (h1 : 1 ≤ i) :
    (l.drop 1).getD (i - 1) dLINE = l.getD i dLINE := by
  simp only [List.getD_eq_getElem?_getD, List.getElem?_drop]
  congr 2
  omega

/-- An in-bounds `getD` access is a member of the list. -/
theorem getD_mem (l : List LINE) (i : Nat) (hi : i < l.length) : l.getD i dLINE ∈ l := by
  rw [List.getD_eq_getElem?_getD, List.getElem?_eq_getElem hi]
  exact List.getElem_mem hi

/-! The claims. -/

/-- Claim C1, counterexample: `progC1` passes validation (its branch
operand `0x04` is a well-formed hex literal), yet only one output line
is emitted for its two instruction lines — the branch line's `fprintf`
sits inside the label-search loop, so a branch whose operand matches no
label writes nothing. -/
theorem c1_counterexample :
    validationOK progC1 = true ∧
      (assembleOutput progC1).length ≠ progC1.length - 1 :=
  ⟨rfl, by decide⟩

/-- Claim C1 (amended): for a program that passes validation the encoder
emits, in program order, exactly one output line per instruction line
except branch lines whose operand is not in the label table (which emit
nothing); the line emitted for the instruction at index `i` starts at
address `base + 2*(i-1)`, and every emitted line's second address is one
past its first (the malformed unknown-operand line prints no second
address). -/
theorem c1_encoder_emission (prog : List LINE) (h : validationOK prog = true) :
    (assembleOutput prog).map outAddr0 =
      emittedAddrs (labelsOf prog) (set_address prog) (prog.drop 1) ∧
      ∀ o ∈ assembleOutput prog, addrStepOK o = true := by
  have hok := assemble_ok prog h
  have h3 : invalidOpScan (labelsOf prog) (prog.drop 1) = [] :=
    ((validationOK_iff prog).mp h).2.2
  have hops := invalidOpScan_nil_ops _ _ h3
  have hmain := encodeAll_addrs (labelsOf prog) (prog.drop 1) (set_address prog) hops
  simpa [assembleOutput, hok] using hmain

/-- Witness for C1: a concrete validated program with a resolved branch. -/
theorem c1_encoder_emission_witness :
    validationOK progC1w = true ∧
      ((assembleOutput progC1w).map outAddr0 =
        emittedAddrs (labelsOf progC1w) (set_address progC1w) (progC1w.drop 1) ∧
        ∀ o ∈ assembleOutput progC1w, addrStepOK o = true) :=
  ⟨rfl, c1_encoder_emission progC1w rfl⟩

/-- Claim C2: a branch instruction (line `i`, counted from 1) whose
operand is the label defined on line `j` — wherever `j` lies relative to
`i`, before or after — emits one output line whose second byte is the
address assigned to line `j`, namely `base + 2*(j-1)`. -/
theorem c2_branch_label_byte1 (prog : List LINE) (i j : Nat) (L : String)
    (hj : j < prog.length) (hj1 : 1 ≤ j) (hL : L ≠ "")
    (hlabel : (prog.getD j dLINE).label = L)
    (hfirst : ∀ k, k < j → 1 ≤ k → (prog.getD k dLINE).label ≠ L)
    (hi : i < prog.length) (hi1 : 1 ≤ i)
    (hbr : isBranchOp ((prog.getD i dLINE).operation) = true)
    (hoperand : (prog.getD i dLINE).operand = L) :
    (encodeLine (labelsOf prog) (set_address prog + 2 * (i - 1)) (prog.getD i dLINE)).map
        outByte1 = [some (set_address prog + 2 * (j - 1))] := by
  have hlen : j - 1 < (prog.drop 1).length := by
    rw [List.length_drop]; omega
  have hfind : findLabel (labelsOf prog) L = some (set_address prog + 2 * (j - 1)) := by
    apply findLabel_collectLabels L (prog.drop 1) (set_address prog) (j - 1) hlen hL
    · rw [getD_drop_one prog j hj1]; exact hlabel
    · intro k hk
      have hk1 : k = (k + 1) - 1 := rfl
      rw [hk1, getD_drop_one prog (k + 1) (by omega)]
      exact hfirst (k + 1) (by omega) (by omega)
  obtain ⟨c, hop⟩ := branch_get_opcode _ hbr
  generalize hgen : prog.getD i dLINE = ln at hbr hoperand hop ⊢
  simp [encodeLine, hop, hbr, hoperand, hfind, outByte1]

/-- Witness for C2: in `progC2` the branch at line 1 references `END`,
defined only later at line 2, and its second byte is END's address 2. -/
theorem c2_branch_label_byte1_witness :
    ((progC2.getD 2 dLINE).label = "END" ∧
      isBranchOp ((progC2.getD 1 dLINE).operation) = true ∧
      (progC2.getD 1 dLINE).operand = "END") ∧
      (encodeLine (labelsOf progC2) (set_address progC2 + 2 * (1 - 1))
          (progC2.getD 1 dLINE)).map outByte1 =
        [some (set_address progC2 + 2 * (2 - 1))] :=
  ⟨⟨rfl, rfl, rfl⟩,
   c2_branch_label_byte1 progC2 1 2 "END" (by decide) (by decide) (by decide) rfl
     (by decide) (by decide) (by decide) rfl rfl⟩

/-- Claim C3, counterexample: `progC3`'s only line has operation `EOP`,
but as line 0 it is outside the scan (which starts at index 1), so the
missing end-of-program error fires although a line of the normalized
program carries the token. -/
theorem c3_counterexample :
    (progC3.any fun l => l.label == "EOP" || l.operation == "EOP") = true ∧
      assemble progC3 = Except.error AsmError.noEOP :=
  ⟨rfl, rfl⟩

/-- Claim C3 (amended): assembly fails with the missing end-of-program
error exactly when no line at index ≥ 1 has `EOP` as its label or
operation field (line 0 is never consulted); the error is an abort, so
no output is produced. -/
theorem c3_missing_eop_iff (prog : List LINE) :
    (assemble prog = Except.error AsmError.noEOP ↔
      ∀ l ∈ prog.drop 1, l.label ≠ "EOP" ∧ l.operation ≠ "EOP") ∧
      (assemble prog = Except.error AsmError.noEOP → assembleOutput prog = []) := by
  constructor
  · rw [assemble_noEOP_iff]
    simp [hasEOP, List.any_eq_true, not_or]
  · intro h
    simp [assembleOutput, h]

/-- Witness for C3: the iff applied to the concrete program `progC4`. -/
theorem c3_missing_eop_iff_witness :
    ((assemble progC4 = Except.error AsmError.noEOP ↔
      ∀ l ∈ progC4.drop 1, l.label ≠ "EOP" ∧ l.operation ≠ "EOP") ∧
      (assemble progC4 = Except.error AsmError.noEOP → assembleOutput progC4 = [])) :=
  c3_missing_eop_iff progC4

/-- Claim C4, counterexample: in `progC4` the operand `0xZZ` of line 1
is non-empty, is not a well-formed hex literal, and matches no label,
yet assembly does not abort — it produces output, because the check only
tests the two-character prefix `0x`, never the digits behind it. -/
theorem c4_counterexample :
    ((progC4.getD 1 dLINE).operand ≠ "" ∧
      isWellFormedHexLit ((progC4.getD 1 dLINE).operand) = false ∧
      findLabel (labelsOf progC4) ((progC4.getD 1 dLINE).operand) = none) ∧
      assembleOutput progC4 ≠ [] :=
  ⟨⟨by decide, rfl, rfl⟩, by decide⟩

/-- Claim C4 (amended): for a program that passes the EOP check, an
operand of an instruction line that is non-empty, does not *begin with*
`0x`, and matches no known label is an unknown-label error; assembly
aborts with no output after the scan has reported every such offending
operand of the whole program, in program order. -/
theorem c4_unknown_label_abort (prog : List LINE) (hEOP : hasEOP prog = true)
    (h : ∃ l ∈ prog.drop 1, lineUnknownLabel (labelsOf prog) l = true) :
    assemble prog =
      Except.error (AsmError.invalidLabels
        (((prog.drop 1).filter fun l => lineUnknownLabel (labelsOf prog) l).map
          fun l => VErr.unknownLabel l.operand)) ∧
      assembleOutput prog = [] := by
  obtain ⟨l, hl, hbad⟩ := h
  have hne : unknownLabelScan (labelsOf prog) (prog.drop 1) ≠ [] := by
    intro hnil
    have := (unknownLabelScan_nil_iff (labelsOf prog) (prog.drop 1)).mp hnil l hl
    rw [hbad] at this
    simp at this
  have habort := assemble_invalidLabels prog hEOP hne
  rw [unknownLabelScan_eq_filter] at habort
  exact ⟨habort, by simp [assembleOutput, habort]⟩

/-- Witness for C4: both bad operands `qq` and `rr` of `progC4w` are
reported, and no output is produced. -/
theorem c4_unknown_label_abort_witness :
    hasEOP progC4w = true ∧
      (assemble progC4w =
        Except.error (AsmError.invalidLabels
          (((progC4w.drop 1).filter fun l => lineUnknownLabel (labelsOf progC4w) l).map
            fun l => VErr.unknownLabel l.operand)) ∧
        assembleOutput progC4w = []) :=
  ⟨rfl, c4_unknown_label_abort progC4w rfl (by decide)⟩

/-- Claim C5, counterexample: `progC5` has an unknown-label error (`qq`)
and an unknown-mnemonic error (`FOO`, line 2), but assembly aborts right
after the unknown-label scan: the reported diagnostics are exactly
`[unknownLabel qq]` — the mnemonic check never ran, contradicting the
claim that all three checks complete before the abort. -/
theorem c5_counterexample :
    get_opcode ((progC5.getD 2 dLINE).operation) = none ∧
      assemble progC5 = Except.error (AsmError.invalidLabels [VErr.unknownLabel "qq"]) :=
  ⟨rfl, rfl⟩

/-- Claim C5 (amended): validation is batched in two phases, each of
which does run to completion over every instruction line.  If any check
fails anywhere no line is encoded (output empty); when some line fails
the unknown-label check, assembly aborts with every unknown-label
diagnostic of the whole program (the other two checks are not run); only
when no line fails it do the unknown-mnemonic and illegal-label-operand
checks run, again over all lines with all their errors accumulated
before the abort. -/
theorem c5_batch_validation (prog : List LINE) (hEOP : hasEOP prog = true)
    (hbad : validationOK prog = false) :
    assembleOutput prog = [] ∧
      ((∃ l ∈ prog.drop 1, lineUnknownLabel (labelsOf prog) l = true) →
        ∃ errs, assemble prog = Except.error (AsmError.invalidLabels errs) ∧
          ∀ l ∈ prog.drop 1, lineUnknownLabel (labelsOf prog) l = true →
            VErr.unknownLabel l.operand ∈ errs) ∧
      ((∀ l ∈ prog.drop 1, lineUnknownLabel (labelsOf prog) l = false) →
        ∃ errs, assemble prog = Except.error (AsmError.invalidOps errs) ∧
          ∀ l ∈ prog.drop 1, ∀ e ∈ lineOpErrs (labelsOf prog) l, e ∈ errs) := by
  have hnotall : ¬ (unknownLabelScan (labelsOf prog) (prog.drop 1) = [] ∧
      invalidOpScan (labelsOf prog) (prog.drop 1) = []) := by
    intro ⟨ha, hb⟩
    have : validationOK prog = true := (validationOK_iff prog).mpr ⟨hEOP, ha, hb⟩
    rw [hbad] at this
    simp at this
  constructor
  · by_cases h1 : unknownLabelScan (labelsOf prog) (prog.drop 1) = []
    · have h2 : invalidOpScan (labelsOf prog) (prog.drop 1) ≠ [] := fun h2 =>
        hnotall ⟨h1, h2⟩
      simp [assembleOutput, assemble_invalidOps prog hEOP h1 h2]
    · simp [assembleOutput, assemble_invalidLabels prog hEOP h1]
  constructor
  · intro ⟨l, hl, hbadl⟩
    have hne : unknownLabelScan (labelsOf prog) (prog.drop 1) ≠ [] := by
      intro hnil
      have := (unknownLabelScan_nil_iff (labelsOf prog) (prog.drop 1)).mp hnil l hl
      rw [hbadl] at this
      simp at this
    refine ⟨unknownLabelScan (labelsOf prog) (prog.drop 1),
      assemble_invalidLabels prog hEOP hne, ?_⟩
    intro l' hl' hbadl'
    exact mem_unknownLabelScan (labelsOf prog) (prog.drop 1) l' hl' hbadl'
  · intro hall
    have h1 : unknownLabelScan (labelsOf prog) (prog.drop 1) = [] :=
      (unknownLabelScan_nil_iff (labelsOf prog) (prog.drop 1)).mpr hall
    have h2 : invalidOpScan (labelsOf prog) (prog.drop 1) ≠ [] := fun h2 =>
      hnotall ⟨h1, h2⟩
    refine ⟨invalidOpScan (labelsOf prog) (prog.drop 1),
      assemble_invalidOps prog hEOP h1 h2, ?_⟩
    intro l hl e he
    exact mem_invalidOpScan (labelsOf prog) (prog.drop 1) l e hl he

/-- Witness for C5: the amended statement applied to `progC5`. -/
theorem c5_batch_validation_witness :
    hasEOP progC5 = true ∧ validationOK progC5 = false ∧
      (assembleOutput progC5 = [] ∧
        ((∃ l ∈ progC5.drop 1, lineUnknownLabel (labelsOf progC5) l = true) →
          ∃ errs, assemble progC5 = Except.error (AsmError.invalidLabels errs) ∧
            ∀ l ∈ progC5.drop 1, lineUnknownLabel (labelsOf progC5) l = true →
              VErr.unknownLabel l.operand ∈ errs) ∧
        ((∀ l ∈ progC5.drop 1, lineUnknownLabel (labelsOf progC5) l = false) →
          ∃ errs, assemble progC5 = Except.error (AsmError.invalidOps errs) ∧
            ∀ l ∈ progC5.drop 1, ∀ e ∈ lineOpErrs (labelsOf progC5) l, e ∈ errs)) :=
  ⟨rfl, rfl, c5_batch_validation progC5 rfl rfl⟩

/-- Claim C6, code bug: in `progC6` the line `WB 0x0a` is a non-branch
instruction without encoded operand and a well-formed hex literal
operand, and the program passes validation; yet the encoder emits the
malformed `Unknown Label` text line with no second byte at all, instead
of byte1 = 0x0a.  The encoder's digit test uses `isdigit`, which rejects
the hex letters that `strncmp`-based validation and the spec accept. -/
theorem c6_hex_letter_bug :
    validationOK progC6 = true ∧
      isWellFormedHexLit ((progC6.getD 1 dLINE).operand) = true ∧
      isBranchOp ((progC6.getD 1 dLINE).operation) = false ∧
      get_opcode ((progC6.getD 1 dLINE).operation) = some ⟨0x30, false⟩ ∧
      assembleOutput progC6 =
        [OutLine.unknown 0 0x30 "0x0a" "WB", OutLine.bytes 2 0xF8 3 0] := by
  exact ⟨rfl, rfl, rfl, rfl, rfl⟩

/-- Claim C7, counterexample: `progC7`'s line 0 is not an ORG directive,
so by the claim the base should be 0; but its line 1 is labelled `ORG`
and `set_address` scans every line, so the base becomes 16. -/
theorem c7_counterexample :
    (progC7.getD 0 dLINE).label ≠ "ORG" ∧ set_address progC7 = 16 ∧
      set_address progC7 ≠ baseClaimC7 progC7 := by
  exact ⟨by decide, rfl, by decide⟩

/-- Claim C7 (amended): the base address is 0 when no line at all is
labelled `ORG`, and otherwise equals the operation field of the *first*
`ORG`-labelled line — at whatever index it sits, not just index 0 —
parsed as `strtol` with base 0 (decimal, `0x` hex, or leading-0
octal). -/
theorem c7_org_sets_base (prog : List LINE) :
    ((∀ l ∈ prog, l.label ≠ "ORG") → set_address prog = 0) ∧
      (∀ i, i < prog.length → (prog.getD i dLINE).label = "ORG" →
        (∀ k, k < i → (prog.getD k dLINE).label ≠ "ORG") →
        set_address prog = toUInt32Nat (strtolBase0 ((prog.getD i dLINE).operation).toList)) := by
  induction prog with
  | nil =>
      refine ⟨fun _ => rfl, fun i hi => ?_⟩
      simp at hi
  | cons l rest ih =>
      constructor
      · intro hall
        have h0 : l.label ≠ "ORG" := hall l (by simp)
        rw [set_address, if_neg h0]
        exact ih.1 fun x hx => hall x (by simp [hx])
      · intro i hi hORG hfirst
        cases i with
        | zero =>
            rw [List.getD_cons_zero] at hORG ⊢
            rw [set_address, if_pos hORG]
        | succ i =>
            have h0 : l.label ≠ "ORG" := by
              have := hfirst 0 (Nat.succ_pos i)
              rwa [List.getD_cons_zero] at this
            rw [List.getD_cons_succ, set_address, if_neg h0]
            exact ih.2 i (by simpa using hi) (by rwa [List.getD_cons_succ] at hORG)
              fun k hk => by
                have := hfirst (k + 1) (Nat.succ_lt_succ hk)
                rwa [List.getD_cons_succ] at this

/-- Witness for C7: no ORG in `progC7a` gives base 0; the ORG-labelled
line 1 of `progC7b` sets the base to 0x10. -/
theorem c7_org_sets_base_witness :
    set_address progC7a = 0 ∧
      set_address progC7b = toUInt32Nat (strtolBase0 ((progC7b.getD 1 dLINE).operation).toList) :=
  ⟨(c7_org_sets_base progC7a).1 (by decide),
   (c7_org_sets_base progC7b).2 1 (by decide) rfl (by decide)⟩

/-- Claim C8, counterexample: in `progC8` the non-branch line `ADD 0x05`
has an operand that exactly matches the known label named `0x05`, yet
validation passes and output is produced — the illegal-operand check
skips any operand beginning with `0x` before it ever consults the label
table. -/
theorem c8_counterexample :
    isBranchOp ((progC8.getD 2 dLINE).operation) = false ∧
      (findLabel (labelsOf progC8) ((progC8.getD 2 dLINE).operand)).isSome = true ∧
      validationOK progC8 = true ∧ assembleOutput progC8 ≠ [] := by
  exact ⟨rfl, rfl, rfl, by decide⟩

/-- Claim C8 (amended): provided the program passes the EOP check and
the unknown-label scan, an instruction line whose mnemonic is not one of
the five branch forms and whose operand is non-empty, does *not begin
with `0x`*, and matches a known label makes assembly abort with no
output, after the full scan, with an invalid-operand diagnostic for that
line among the reported errors; the same label operand on a branch
mnemonic contributes no error to either check. -/
theorem c8_illegal_label_operand (prog : List LINE) :
    (∀ l ∈ prog.drop 1,
      hasEOP prog = true →
      unknownLabelScan (labelsOf prog) (prog.drop 1) = [] →
      isBranchOp l.operation = false →
      l.operand ≠ "" →
      startsWith0x l.operand = false →
      (findLabel (labelsOf prog) l.operand).isSome = true →
      ∃ errs, assemble prog = Except.error (AsmError.invalidOps errs) ∧
        VErr.invalidOperand l.operation ∈ errs ∧ assembleOutput prog = []) ∧
      (∀ l ∈ prog.drop 1, isBranchOp l.operation = true →
        (findLabel (labelsOf prog) l.operand).isSome = true →
        lineUnknownLabel (labelsOf prog) l = false ∧ lineOpErrs (labelsOf prog) l = []) := by
  constructor
  · intro l hl hEOP h1 hnb hne hnx hsome
    have hcond : isBranchOp l.operation = false ∧ l.operand ≠ "" ∧
        startsWith0x l.operand = false ∧ (findLabel (labelsOf prog) l.operand).isSome = true :=
      ⟨hnb, hne, hnx, hsome⟩
    have he : VErr.invalidOperand l.operation ∈ lineOpErrs (labelsOf prog) l := by
      rw [lineOpErrs, if_pos hcond]
      exact List.mem_append.mpr (Or.inr (by simp))
    have hmem := mem_invalidOpScan (labelsOf prog) (prog.drop 1) l _ hl he
    have h2 : invalidOpScan (labelsOf prog) (prog.drop 1) ≠ [] :=
      List.ne_nil_of_mem hmem
    have habort := assemble_invalidOps prog hEOP h1 h2
    exact ⟨invalidOpScan (labelsOf prog) (prog.drop 1), habort, hmem,
      by simp [assembleOutput, habort]⟩
  · intro l _ hbr hsome
    obtain ⟨la, hfind⟩ := Option.isSome_iff_exists.mp hsome
    constructor
    · simp [lineUnknownLabel, hfind]
    · obtain ⟨c, hop⟩ := branch_get_opcode _ hbr
      rw [lineOpErrs, if_neg (by simp [hop]), if_neg (by simp [hbr])]
      rfl

/-- Witness for C8: in `progC8w`, `ADD LBL` aborts assembly with an
invalid-operand diagnostic, while `BR LBL` contributes no error. -/
theorem c8_illegal_label_operand_witness :
    ((⟨"", "ADD", "LBL"⟩ : LINE) ∈ progC8w.drop 1 ∧
      (⟨"", "BR", "LBL"⟩ : LINE) ∈ progC8w.drop 1) ∧
      (∃ errs, assemble progC8w = Except.error (AsmError.invalidOps errs) ∧
        VErr.invalidOperand "ADD" ∈ errs ∧ assembleOutput progC8w = []) ∧
      (lineUnknownLabel (labelsOf progC8w) ⟨"", "BR", "LBL"⟩ = false ∧
        lineOpErrs (labelsOf progC8w) ⟨"", "BR", "LBL"⟩ = []) :=
  ⟨⟨by decide, by decide⟩,
   (c8_illegal_label_operand progC8w).1 ⟨"", "ADD", "LBL"⟩ (by decide) rfl rfl rfl
     (by decide) rfl rfl,
   (c8_illegal_label_operand progC8w).2 ⟨"", "BR", "LBL"⟩ (by decide) rfl rfl⟩

/-- Claim C9, counterexample: `progC9`'s line 0 is `L0 WB 0x01` — not an
ORG directive — yet its label `L0` is not recorded in the label table
and the line is not encoded: the only output line is the `EOP` line at
the base address.  Line 0 is excluded unconditionally, not only when it
is an ORG directive. -/
theorem c9_counterexample :
    (progC9.getD 0 dLINE).label = "L0" ∧ (progC9.getD 0 dLINE).label ≠ "ORG" ∧
      findLabel (labelsOf progC9) "L0" = none ∧
      assembleOutput progC9 = [OutLine.bytes 0 0xF8 1 0] := by
  exact ⟨rfl, by decide, rfl, rfl⟩

/-- Claim C9 (amended): line 0 is excluded from instruction processing
unconditionally.  Its only influence on the run is through the ORG scan
for the base address: replacing line 0 by any other line that agrees on
whether the label is `"ORG"` (and, if it is, on the operation field)
leaves the entire result of assembly unchanged — no address, label
entry, EOP flag, validation or output ever comes from line 0. -/
theorem c9_line0_excluded (l0 l0' : LINE) (rest : List LINE)
    (hORG : l0.label = "ORG" ↔ l0'.label = "ORG")
    (hop : l0.label = "ORG" → l0.operation = l0'.operation) :
    assemble (l0 :: rest) = assemble (l0' :: rest) := by
  have hbase : set_address (l0 :: rest) = set_address (l0' :: rest) := by
    by_cases h : l0.label = "ORG"
    · have h' := hORG.mp h
      rw [set_address, if_pos h, set_address, if_pos h', hop h]
    · have h' : l0'.label ≠ "ORG" := fun hh => h (hORG.mpr hh)
      rw [set_address, if_neg h, set_address, if_neg h']
  simp only [assemble, hasEOP, hbase, List.drop_succ_cons, List.drop_zero]

/-- Witness for C9: replacing the labelled instruction line 0 of a
program by an unrelated line leaves the assembly result unchanged. -/
theorem c9_line0_excluded_witness :
    (((⟨"L0", "WB", "0x99"⟩ : LINE).label = "ORG" ↔
        (⟨"XX", "EOP", ""⟩ : LINE).label = "ORG") ∧
      ((⟨"L0", "WB", "0x99"⟩ : LINE).label = "ORG" →
        (⟨"L0", "WB", "0x99"⟩ : LINE).operation = (⟨"XX", "EOP", ""⟩ : LINE).operation)) ∧
      assemble [⟨"L0", "WB", "0x99"⟩, ⟨"", "EOP", ""⟩] =
        assemble [⟨"XX", "EOP", ""⟩, ⟨"", "EOP", ""⟩] :=
  ⟨⟨by decide, by decide⟩,
   c9_line0_excluded ⟨"L0", "WB", "0x99"⟩ ⟨"XX", "EOP", ""⟩ [⟨"", "EOP", ""⟩]
     (by decide) (by decide)⟩

/-- The fifteen mnemonics without encoded operand are outside the
eight-element encoded-operand list. -/
theorem notMem_enc_WB : "WB" ∉ ["WM", "RM", "WIO", "BR", "BRE", "BRNE", "BRGT", "BRLT"] := by
  decide

theorem notMem_enc_WACC : "WACC" ∉ ["WM", "RM", "WIO", "BR", "BRE", "BRNE", "BRGT", "BRLT"] := by
  decide

theorem notMem_enc_WIB : "WIB" ∉ ["WM", "RM", "WIO", "BR", "BRE", "BRNE", "BRGT", "BRLT"] := by
  decide

theorem notMem_enc_RACC : "RACC" ∉ ["WM", "RM", "WIO", "BR", "BRE", "BRNE", "BRGT", "BRLT"] := by
  decide

theorem notMem_enc_ADD : "ADD" ∉ ["WM", "RM", "WIO", "BR", "BRE", "BRNE", "BRGT", "BRLT"] := by
  decide

theorem notMem_enc_SUB : "SUB" ∉ ["WM", "RM", "WIO", "BR", "BRE", "BRNE", "BRGT", "BRLT"] := by
  decide

theorem notMem_enc_MUL : "MUL" ∉ ["WM", "RM", "WIO", "BR", "BRE", "BRNE", "BRGT", "BRLT"] := by
  decide

theorem notMem_enc_AND : "AND" ∉ ["WM", "RM", "WIO", "BR", "BRE", "BRNE", "BRGT", "BRLT"] := by
  decide

theorem notMem_enc_OR : "OR" ∉ ["WM", "RM", "WIO", "BR", "BRE", "BRNE", "BRGT", "BRLT"] := by
  decide

theorem notMem_enc_NOT : "NOT" ∉ ["WM", "RM", "WIO", "BR", "BRE", "BRNE", "BRGT", "BRLT"] := by
  decide

theorem notMem_enc_XOR : "XOR" ∉ ["WM", "RM", "WIO", "BR", "BRE", "BRNE", "BRGT", "BRLT"] := by
  decide

theorem notMem_enc_SHL : "SHL" ∉ ["WM", "RM", "WIO", "BR", "BRE", "BRNE", "BRGT", "BRLT"] := by
  decide

theorem notMem_enc_SHR : "SHR" ∉ ["WM", "RM", "WIO", "BR", "BRE", "BRNE", "BRGT", "BRLT"] := by
  decide

theorem notMem_enc_EOP : "EOP" ∉ ["WM", "RM", "WIO", "BR", "BRE", "BRNE", "BRGT", "BRLT"] := by
  decide

theorem notMem_enc_SWAP : "SWAP" ∉ ["WM", "RM", "WIO", "BR", "BRE", "BRNE", "BRGT", "BRLT"] := by
  decide

set_option maxHeartbeats 2000000 in
/-- Claim C10: a mnemonic found in the instruction table has
`addBoolean = true` exactly when it is one of WM, RM, WIO, BR, BRE,
BRNE, BRGT, BRLT; consequently a non-branch mnemonic with an encoded
operand is one of WM, RM, WIO. -/
theorem c10_addBoolean_table (m : String) (op : OPOBJ) (h : get_opcode m = some op) :
    (op.addBoolean = true ↔
      m ∈ ["WM", "RM", "WIO", "BR", "BRE", "BRNE", "BRGT", "BRLT"]) ∧
      (op.addBoolean = true → isBranchOp m = false → m ∈ ["WM", "RM", "WIO"]) := by
  by_cases h1 : m = "WB"
  · rw [get_opcode, if_pos h1] at h
    injection h with hop
    subst hop
    subst h1
    exact ⟨iff_of_false (fun hc => nomatch hc) notMem_enc_WB, fun hc => nomatch hc⟩
  by_cases h2 : m = "WM"
  · rw [get_opcode, if_neg h1, if_pos h2] at h
    injection h with hop
    subst hop
    subst h2
    exact ⟨iff_of_true rfl (List.mem_cons_self _ _), fun _ _ => List.mem_cons_self _ _⟩
  by_cases h3 : m = "RM"
  · rw [get_opcode, if_neg h1, if_neg h2, if_pos h3] at h
    injection h with hop
    subst hop
    subst h3
    exact ⟨iff_of_true rfl (List.mem_cons_of_mem _ (List.mem_cons_self _ _)), fun _ _ => List.mem_cons_of_mem _ (List.mem_cons_self _ _)⟩
  by_cases h4 : m = "WACC"
  · rw [get_opcode, if_neg h1, if_neg h2, if_neg h3, if_pos h4] at h
    injection h with hop
    subst hop
    subst h4
    exact ⟨iff_of_false (fun hc => nomatch hc) notMem_enc_WACC, fun hc => nomatch hc⟩
  by_cases h5 : m = "WIB"
  · rw [get_opcode, if_neg h1, if_neg h2, if_neg h3, if_neg h4, if_pos h5] at h
    injection h with hop
    subst hop
    subst h5
    exact ⟨iff_of_false (fun hc => nomatch hc) notMem_enc_WIB, fun hc => nomatch hc⟩
  by_cases h6 : m = "WIO"
  · rw [get_opcode, if_neg h1, if_neg h2, if_neg h3, if_neg h4, if_neg h5, if_pos h6] at h
    injection h with hop
    subst hop
    subst h6
    exact ⟨iff_of_true rfl (List.mem_cons_of_mem _ (List.mem_cons_of_mem _ (List.mem_cons_self _ _))), fun _ _ => List.mem_cons_of_mem _ (List.mem_cons_of_mem _ (List.mem_cons_self _ _))⟩
  by_cases h7 : m = "RACC"
  · rw [get_opcode, if_neg h1, if_neg h2, if_neg h3, if_neg h4, if_neg h5, if_neg h6, if_pos h7] at h
    injection h with hop
    subst hop
    subst h7
    exact ⟨iff_of_false (fun hc => nomatch hc) notMem_enc_RACC, fun hc => nomatch hc⟩
  by_cases h8 : m = "ADD"
  · rw [get_opcode, if_neg h1, if_neg h2, if_neg h3, if_neg h4, if_neg h5, if_neg h6, if_neg h7, if_pos h8] at h
    injection h with hop
    subst hop
    subst h8
    exact ⟨iff_of_false (fun hc => nomatch hc) notMem_enc_ADD, fun hc => nomatch hc⟩
  by_cases h9 : m = "SUB"
  · rw [get_opcode, if_neg h1, if_neg h2, if_neg h3, if_neg h4, if_neg h5, if_neg h6, if_neg h7, if_neg h8, if_pos h9] at h
    injection h with hop
    subst hop
    subst h9
    exact ⟨iff_of_false (fun hc => nomatch hc) notMem_enc_SUB, fun hc => nomatch hc⟩
  by_cases h10 : m = "MUL"
  · rw [get_opcode, if_neg h1, if_neg h2, if_neg h3, if_neg h4, if_neg h5, if_neg h6, if_neg h7, if_neg h8, if_neg h9, if_pos h10] at h
    injection h with hop
    subst hop
    subst h10
    exact ⟨iff_of_false (fun hc => nomatch hc) notMem_enc_MUL, fun hc => nomatch hc⟩
  by_cases h11 : m = "AND"
  · rw [get_opcode, if_neg h1, if_neg h2, if_neg h3, if_neg h4, if_neg h5, if_neg h6, if_neg h7, if_neg h8, if_neg h9, if_neg h10, if_pos h11] at h
    injection h with hop
    subst hop
    subst h11
    exact ⟨iff_of_false (fun hc => nomatch hc) notMem_enc_AND, fun hc => nomatch hc⟩
  by_cases h12 : m = "OR"
  · rw [get_opcode, if_neg h1, if_neg h2, if_neg h3, if_neg h4, if_neg h5, if_neg h6, if_neg h7, if_neg h8, if_neg h9, if_neg h10, if_neg h11, if_pos h12] at h
    injection h with hop
    subst hop
    subst h12
    exact ⟨iff_of_false (fun hc => nomatch hc) notMem_enc_OR, fun hc => nomatch hc⟩
  by_cases h13 : m = "NOT"
  · rw [get_opcode, if_neg h1, if_neg h2, if_neg h3, if_neg h4, if_neg h5, if_neg h6, if_neg h7, if_neg h8, if_neg h9, if_neg h10, if_neg h11, if_neg h12, if_pos h13] at h
    injection h with hop
    subst hop
    subst h13
    exact ⟨iff_of_false (fun hc => nomatch hc) notMem_enc_NOT, fun hc => nomatch hc⟩
  by_cases h14 : m = "XOR"
  · rw [get_opcode, if_neg h1, if_neg h2, if_neg h3, if_neg h4, if_neg h5, if_neg h6, if_neg h7, if_neg h8, if_neg h9, if_neg h10, if_neg h11, if_neg h12, if_neg h13, if_pos h14] at h
    injection h with hop
    subst hop
    subst h14
    exact ⟨iff_of_false (fun hc => nomatch hc) notMem_enc_XOR, fun hc => nomatch hc⟩
  by_cases h15 : m = "SHL"
  · rw [get_opcode, if_neg h1, if_neg h2, if_neg h3, if_neg h4, if_neg h5, if_neg h6, if_neg h7, if_neg h8, if_neg h9, if_neg h10, if_neg h11, if_neg h12, if_neg h13, if_neg h14, if_pos h15] at h
    injection h with hop
    subst hop
    subst h15
    exact ⟨iff_of_false (fun hc => nomatch hc) notMem_enc_SHL, fun hc => nomatch hc⟩
  by_cases h16 : m = "SHR"
  · rw [get_opcode, if_neg h1, if_neg h2, if_neg h3, if_neg h4, if_neg h5, if_neg h6, if_neg h7, if_neg h8, if_neg h9, if_neg h10, if_neg h11, if_neg h12, if_neg h13, if_neg h14, if_neg h15, if_pos h16] at h
    injection h with hop
    subst hop
    subst h16
    exact ⟨iff_of_false (fun hc => nomatch hc) notMem_enc_SHR, fun hc => nomatch hc⟩
  by_cases h17 : m = "BR"
  · rw [get_opcode, if_neg h1, if_neg h2, if_neg h3, if_neg h4, if_neg h5, if_neg h6, if_neg h7, if_neg h8, if_neg h9, if_neg h10, if_neg h11, if_neg h12, if_neg h13, if_neg h14, if_neg h15, if_neg h16, if_pos h17] at h
    injection h with hop
    subst hop
    subst h17
    exact ⟨iff_of_true rfl (List.mem_cons_of_mem _ (List.mem_cons_of_mem _ (List.mem_cons_of_mem _ (List.mem_cons_self _ _)))), fun _ hbr => nomatch hbr⟩
  by_cases h18 : m = "BRE"
  · rw [get_opcode, if_neg h1, if_neg h2, if_neg h3, if_neg h4, if_neg h5, if_neg h6, if_neg h7, if_neg h8, if_neg h9, if_neg h10, if_neg h11, if_neg h12, if_neg h13, if_neg h14, if_neg h15, if_neg h16, if_neg h17, if_pos h18] at h
    injection h with hop
    subst hop
    subst h18
    exact ⟨iff_of_true rfl (List.mem_cons_of_mem _ (List.mem_cons_of_mem _ (List.mem_cons_of_mem _ (List.mem_cons_of_mem _ (List.mem_cons_self _ _))))), fun _ hbr => nomatch hbr⟩
  by_cases h19 : m = "BRNE"
  · rw [get_opcode, if_neg h1, if_neg h2, if_neg h3, if_neg h4, if_neg h5, if_neg h6, if_neg h7, if_neg h8, if_neg h9, if_neg h10, if_neg h11, if_neg h12, if_neg h13, if_neg h14, if_neg h15, if_neg h16, if_neg h17, if_neg h18, if_pos h19] at h
    injection h with hop
    subst hop
    subst h19
    exact ⟨iff_of_true rfl (List.mem_cons_of_mem _ (List.mem_cons_of_mem _ (List.mem_cons_of_mem _ (List.mem_cons_of_mem _ (List.mem_cons_of_mem _ (List.mem_cons_self _ _)))))), fun _ hbr => nomatch hbr⟩
  by_cases h20 : m = "BRGT"
  · rw [get_opcode, if_neg h1, if_neg h2, if_neg h3, if_neg h4, if_neg h5, if_neg h6, if_neg h7, if_neg h8, if_neg h9, if_neg h10, if_neg h11, if_neg h12, if_neg h13, if_neg h14, if_neg h15, if_neg h16, if_neg h17, if_neg h18, if_neg h19, if_pos h20] at h
    injection h with hop
    subst hop
    subst h20
    exact ⟨iff_of_true rfl (List.mem_cons_of_mem _ (List.mem_cons_of_mem _ (List.mem_cons_of_mem _ (List.mem_cons_of_mem _ (List.mem_cons_of_mem _ (List.mem_cons_of_mem _ (List.mem_cons_self _ _))))))), fun _ hbr => nomatch hbr⟩
  by_cases h21 : m = "BRLT"
  · rw [get_opcode, if_neg h1, if_neg h2, if_neg h3, if_neg h4, if_neg h5, if_neg h6, if_neg h7, if_neg h8, if_neg h9, if_neg h10, if_neg h11, if_neg h12, if_neg h13, if_neg h14, if_neg h15, if_neg h16, if_neg h17, if_neg h18, if_neg h19, if_neg h20, if_pos h21] at h
    injection h with hop
    subst hop
    subst h21
    exact ⟨iff_of_true rfl (List.mem_cons_of_mem _ (List.mem_cons_of_mem _ (List.mem_cons_of_mem _ (List.mem_cons_of_mem _ (List.mem_cons_of_mem _ (List.mem_cons_of_mem _ (List.mem_cons_of_mem _ (List.mem_cons_self _ _)))))))), fun _ hbr => nomatch hbr⟩
  by_cases h22 : m = "EOP"
  · rw [get_opcode, if_neg h1, if_neg h2, if_neg h3, if_neg h4, if_neg h5, if_neg h6, if_neg h7, if_neg h8, if_neg h9, if_neg h10, if_neg h11, if_neg h12, if_neg h13, if_neg h14, if_neg h15, if_neg h16, if_neg h17, if_neg h18, if_neg h19, if_neg h20, if_neg h21, if_pos h22] at h
    injection h with hop
    subst hop
    subst h22
    exact ⟨iff_of_false (fun hc => nomatch hc) notMem_enc_EOP, fun hc => nomatch hc⟩
  by_cases h23 : m = "SWAP"
  · rw [get_opcode, if_neg h1, if_neg h2, if_neg h3, if_neg h4, if_neg h5, if_neg h6, if_neg h7, if_neg h8, if_neg h9, if_neg h10, if_neg h11, if_neg h12, if_neg h13, if_neg h14, if_neg h15, if_neg h16, if_neg h17, if_neg h18, if_neg h19, if_neg h20, if_neg h21, if_neg h22, if_pos h23] at h
    injection h with hop
    subst hop
    subst h23
    exact ⟨iff_of_false (fun hc => nomatch hc) notMem_enc_SWAP, fun hc => nomatch hc⟩
  rw [get_opcode, if_neg h1, if_neg h2, if_neg h3, if_neg h4, if_neg h5, if_neg h6, if_neg h7, if_neg h8, if_neg h9, if_neg h10, if_neg h11, if_neg h12, if_neg h13, if_neg h14, if_neg h15, if_neg h16, if_neg h17, if_neg h18, if_neg h19, if_neg h20, if_neg h21, if_neg h22, if_neg h23] at h
  exact Option.noConfusion h

/-- Witness for C10: the table fact applied at the mnemonic `WM`. -/
theorem c10_addBoolean_table_witness :
    get_opcode "WM" = some ⟨0x08, true⟩ ∧
      (((⟨0x08, true⟩ : OPOBJ).addBoolean = true ↔
        "WM" ∈ ["WM", "RM", "WIO", "BR", "BRE", "BRNE", "BRGT", "BRLT"]) ∧
       ((⟨0x08, true⟩ : OPOBJ).addBoolean = true → isBranchOp "WM" = false →
        "WM" ∈ ["WM", "RM", "WIO"])) :=
  ⟨rfl, c10_addBoolean_table "WM" ⟨0x08, true⟩ rfl⟩

end TRACS
